import Mathlib

/-!
Verification of the core Infiniband transport layer (net/infiniband.c):
work-queue fill accounting, queue-pair creation/destruction, number lookup,
port open/close reference counting and multicast membership bookkeeping.

Machine integers: fill counters are modelled as `Int` (the C fields are
machine integers whose underflow would in any case violate the stated
bounds); queue-pair numbers, queue keys and GIDs are modelled as `Nat`
(only equality comparisons on them matter).  The device-specific hardware
operations (`ibdev->op->...`) are external collaborators and appear as
explicit result-code parameters.
-/

namespace Infiniband

/-- Error numbers from errno.h.  Only their distinctness and being nonzero
matter; the values are the conventional ones. -/
def ENOBUFS : Int := 105

def ECANCELED : Int := 125

def EINVAL : Int := 22

def ENOMEM : Int := 12

/-- Modelled from the spec: the well-known reserved external queue-pair
number of the subnet-management interface (header not in the sources). -/
def IB_QPN_SMI : Nat := 0

/-- Modelled from the spec: the well-known reserved external queue-pair
number of the general-services interface (header not in the sources). -/
def IB_QPN_GSI : Nat := 1

/-- Modelled from the spec: the baseline default transmit rate filled into
an address vector whose rate field is unset (header not in the sources). -/
def IB_RATE_2_5 : Nat := 2

/-- Modelled from the spec: the fixed maximum payload size that a receive
buffer must be able to hold (header not in the sources). -/
def IB_MAX_PAYLOAD_SIZE : Nat := 2048

/-- Modelled from the spec: an address vector carries routing/addressing
parameters for a send operation (destination, service level, rate, queue
key); the struct itself lives in a header not present in the sources. -/
structure ib_address_vector where
  lid : Nat
  sl : Nat
  rate : Nat
  qkey : Nat
deriving DecidableEq, Repr

/-- The all-zero address vector (zalloc'ed storage). -/
def av_zero : ib_address_vector := { lid := 0, sl := 0, rate := 0, qkey := 0 }

/-- One work queue of a queue pair: capacity, current fill level and the
buffer-slot array (buffers identified by numeric tags). -/
structure ib_work_queue where
  num_wqes : Nat
  fill : Int
  iobufs : List (Option Nat)
deriving DecidableEq, Repr

/-- Queue pair type (generic / subnet-management / general-services). -/
inductive ib_queue_pair_type where
  | IB_QPT_SMI
  | IB_QPT_GSI
  | IB_QPT_UD
deriving DecidableEq, Repr

/-- A queue pair.  `id` is an identity tag standing for the node's address,
used to tell structurally equal pairs apart in device lists. -/
structure ib_queue_pair where
  id : Nat
  type : ib_queue_pair_type
  qpn : Nat
  ext_qpn : Nat
  qkey : Nat
  av : ib_address_vector
  send : ib_work_queue
  recv : ib_work_queue
  mgids : List Nat
deriving DecidableEq, Repr

/-- The success path of `ib_create_qp`: zalloc'ed storage (both fills 0,
all slots empty, zeroed default address vector, empty multicast list), the
hardware create operation assigns `hw_qpn`, and the externally-visible
number is remapped for the two privileged types (the `switch ( type )` at
the end of `ib_create_qp`). -/
def ib_create_qp (id : Nat) (type : ib_queue_pair_type)
    (num_send_wqes num_recv_wqes : Nat) (hw_qpn : Nat) : ib_queue_pair :=
  { id := id
    type := type
    qpn := hw_qpn
    ext_qpn :=
      match type with
      | .IB_QPT_SMI => IB_QPN_SMI
      | .IB_QPT_GSI => IB_QPN_GSI
      | .IB_QPT_UD => hw_qpn
    qkey := 0
    av := av_zero
    send := { num_wqes := num_send_wqes, fill := 0
              iobufs := List.replicate num_send_wqes none }
    recv := { num_wqes := num_recv_wqes, fill := 0
              iobufs := List.replicate num_recv_wqes none }
    mgids := [] }

/-- `ib_find_qp_qpn`: linear scan of the device's queue pairs, matching a
pair whose internal or external number equals the argument. -/
def ib_find_qp_qpn (qps : List ib_queue_pair) (qpn : Nat) :
    Option ib_queue_pair :=
  qps.find? (fun qp => qpn == qp.qpn || qpn == qp.ext_qpn)

/-! ### Posting send work queue entries

`ib_post_send` manipulates address vectors through pointers: the local
variable `av` first points at the caller's vector (or at `qp->av` when the
caller passes NULL), is then redirected at the stack copy `av_copy`, and
the optional-field defaulting writes go through that pointer.  To state
frame properties about the caller's storage faithfully we model the three
involved storage locations explicitly. -/

/-- The three address-vector storage locations `ib_post_send` can touch:
the caller's vector, the pair's stored default `qp->av`, and the local
`av_copy`. -/
inductive AVLoc where
  | caller
  | qp_av
  | av_copy
deriving DecidableEq, Repr

/-- The contents of the three address-vector storage locations. -/
structure AVHeap where
  caller : ib_address_vector
  qp_av : ib_address_vector
  av_copy : ib_address_vector
deriving DecidableEq, Repr

def AVHeap.read (h : AVHeap) : AVLoc → ib_address_vector
  | .caller => h.caller
  | .qp_av => h.qp_av
  | .av_copy => h.av_copy

def AVHeap.write (h : AVHeap) : AVLoc → ib_address_vector → AVHeap
  | .caller, a => { h with caller := a }
  | .qp_av, a => { h with qp_av := a }
  | .av_copy, a => { h with av_copy := a }

/-- Observable outcome of one `ib_post_send` call: return code, the send
fill level afterwards, whether the hardware post operation was invoked,
the address vector it received, and the final contents of the three
address-vector storage locations. -/
structure PostSendResult where
  rc : Int
  fill' : Int
  hw_called : Bool
  hw_av : Option ib_address_vector
  heap' : AVHeap
deriving DecidableEq, Repr

/-- `ib_post_send`.  `hw` is the device's `op->post_send`, abstracted as
the result code it returns for the address vector it is handed;
`av_is_null` says whether the caller passed a NULL address vector. -/
def ib_post_send (hw : ib_address_vector → Int) (send_fill : Int)
    (send_num_wqes : Nat) (qp_qkey : Nat) (heap : AVHeap)
    (av_is_null : Bool) : PostSendResult :=
  -- Check queue fill level
  if send_fill ≥ (send_num_wqes : Int) then
    { rc := -ENOBUFS, fill' := send_fill, hw_called := false,
      hw_av := none, heap' := heap }
  else
    -- Use default address vector if none specified
    let av : AVLoc := if av_is_null then .qp_av else .caller
    -- Make modifiable copy of address vector
    let h1 := heap.write .av_copy (heap.read av)
    let av : AVLoc := .av_copy
    -- Fill in optional parameters in address vector
    let h2 :=
      if (h1.read av).qkey = 0 then
        h1.write av { h1.read av with qkey := qp_qkey }
      else h1
    let h3 :=
      if (h2.read av).rate = 0 then
        h2.write av { h2.read av with rate := IB_RATE_2_5 }
      else h2
    -- Post to hardware
    let rc := hw (h3.read av)
    if rc ≠ 0 then
      { rc := rc, fill' := send_fill, hw_called := true,
        hw_av := some (h3.read av), heap' := h3 }
    else
      { rc := 0, fill' := send_fill + 1, hw_called := true,
        hw_av := some (h3.read av), heap' := h3 }

/-- Observable outcome of one `ib_post_recv` call. -/
structure PostRecvResult where
  rc : Int
  fill' : Int
  hw_called : Bool
deriving DecidableEq, Repr

/-- `ib_post_recv`.  `hw_rc` is the result code of the device's
`op->post_recv`; `tailroom` is `iob_tailroom ( iobuf )`. -/
def ib_post_recv (hw_rc : Int) (recv_fill : Int) (recv_num_wqes : Nat)
    (tailroom : Nat) : PostRecvResult :=
  -- Check packet length
  if tailroom < IB_MAX_PAYLOAD_SIZE then
    { rc := -EINVAL, fill' := recv_fill, hw_called := false }
  -- Check queue fill level
  else if recv_fill ≥ (recv_num_wqes : Int) then
    { rc := -ENOBUFS, fill' := recv_fill, hw_called := false }
  -- Post to hardware
  else if hw_rc ≠ 0 then
    { rc := hw_rc, fill' := recv_fill, hw_called := true }
  else
    { rc := 0, fill' := recv_fill + 1, hw_called := true }

/-! ### Completions -/

/-- A delivered completion: direction, buffer, the address vector handed
to a receive callback, status code, and whether it went to the completion
queue's registered callback (as opposed to the default `free_iob`). -/
structure CompEv where
  is_send : Bool
  iobuf : Nat
  av : Option ib_address_vector
  rc : Int
  via_cb : Bool
deriving DecidableEq, Repr

/-- Outcome of one completion call: the delivered completion and the new
fill level. -/
structure CompleteResult where
  ev : CompEv
  fill' : Int
deriving DecidableEq, Repr

/-- `ib_complete_send`: invoke the completion queue's send callback if
present, else free the buffer; always decrement the send fill level.
`has_cb` is whether `qp->send.cq->op->complete_send` is non-NULL. -/
def ib_complete_send (has_cb : Bool) (send_fill : Int) (iobuf : Nat)
    (rc : Int) : CompleteResult :=
  { ev := { is_send := true, iobuf := iobuf, av := none, rc := rc,
            via_cb := has_cb },
    fill' := send_fill - 1 }

/-- `ib_complete_recv`: symmetric to `ib_complete_send` on the receive
side. -/
def ib_complete_recv (has_cb : Bool) (recv_fill : Int)
    (av : Option ib_address_vector) (iobuf : Nat) (rc : Int) :
    CompleteResult :=
  { ev := { is_send := false, iobuf := iobuf, av := av, rc := rc,
            via_cb := has_cb },
    fill' := recv_fill - 1 }

/-! ### Queue pair destruction -/

/-- The send-side loop of `ib_destroy_qp`: walk every slot and force a
completion with `-ECANCELED` for each non-empty one, threading the fill
level through `ib_complete_send`.  Returns the delivered completions in
slot order together with the final fill level. -/
def cancel_send_walk (has_cb : Bool) (slots : List (Option Nat))
    (fill : Int) : List CompEv × Int :=
  match slots with
  | [] => ([], fill)
  | none :: rest => cancel_send_walk has_cb rest fill
  | some b :: rest =>
    let r := ib_complete_send has_cb fill b (-ECANCELED)
    let w := cancel_send_walk has_cb rest r.fill'
    (r.ev :: w.1, w.2)

/-- The receive-side loop of `ib_destroy_qp` (the address vector handed to
`ib_complete_recv` is NULL there). -/
def cancel_recv_walk (has_cb : Bool) (slots : List (Option Nat))
    (fill : Int) : List CompEv × Int :=
  match slots with
  | [] => ([], fill)
  | none :: rest => cancel_recv_walk has_cb rest fill
  | some b :: rest =>
    let r := ib_complete_recv has_cb fill none b (-ECANCELED)
    let w := cancel_recv_walk has_cb rest r.fill'
    (r.ev :: w.1, w.2)

/-- `ib_destroy_qp`: after the device-specific teardown (external), force
cancelled completions for every remaining buffer in both work queues, then
unlink the pair from the device's list and free it.  `list_del` removes
the pair's own node; with identity tags this is removal of the entries
carrying the pair's tag.  Returns the delivered completions (sends first,
as in the code) and the device's remaining queue-pair list. -/
def ib_destroy_qp (has_send_cb has_recv_cb : Bool)
    (qps : List ib_queue_pair) (qp : ib_queue_pair) :
    List CompEv × List ib_queue_pair :=
  let sw := cancel_send_walk has_send_cb qp.send.iobufs qp.send.fill
  let rw := cancel_recv_walk has_recv_cb qp.recv.iobufs qp.recv.fill
  (sw.1 ++ rw.1, qps.filter (fun q => ! (q.id == qp.id)))

/-! ### Port open/close reference counting

`ib_open` / `ib_close` create and tear down the subnet-management
interface (SMI), subnet-management agent (SMA) and general-services
interface (GSI) — all external collaborators — and call the hardware
open/close operations.  We record every such action in an event log. -/

inductive PortEv where
  | smi_create
  | sma_create
  | gsi_create
  | hw_open
  | gsi_destroy
  | sma_destroy
  | smi_destroy
  | hw_close
deriving DecidableEq, Repr

/-- Port state of one device: the open request counter, which of the
management interfaces currently exist, whether the hardware open
succeeded, and the cumulative event log. -/
structure PortState where
  open_count : Int
  smi : Bool
  sma : Bool
  gsi : Bool
  hw_opened : Bool
  log : List PortEv
deriving DecidableEq, Repr

/-- A freshly allocated (zalloc'ed) device is closed. -/
def ib_port_init : PortState :=
  { open_count := 0, smi := false, sma := false, gsi := false,
    hw_opened := false, log := [] }

/-- Outcomes of the external creation steps and the hardware open
operation during one `ib_open` call: whether `ib_create_mi ( IB_QPT_SMI )`
succeeds, the result code of `ib_create_sma`, whether
`ib_create_mi ( IB_QPT_GSI )` succeeds, and the result code of
`ibdev->op->open`. -/
structure OpenEnv where
  smi_ok : Bool
  sma_rc : Int
  gsi_ok : Bool
  open_rc : Int
deriving DecidableEq, Repr

/-- `ib_open`: post-increment the open counter and return success if the
device was already open; otherwise create SMI, SMA, GSI and open the
hardware in that order, unwinding in reverse order and forcing the counter
back to 0 on any failure. -/
def ib_open (env : OpenEnv) (s : PortState) : Int × PortState :=
  -- Increment device open request counter
  let old := s.open_count
  let s := { s with open_count := old + 1 }
  if old > 0 then
    -- Device was already open; do nothing
    (0, s)
  else
    -- Create subnet management interface
    if ¬ env.smi_ok then
      (-ENOMEM, { s with open_count := 0 })
    else
      let s := { s with smi := true, log := s.log ++ [PortEv.smi_create] }
      -- Create subnet management agent
      if env.sma_rc ≠ 0 then
        (env.sma_rc,
         { s with
           smi := false
           log := s.log ++ [PortEv.smi_destroy]
           open_count := 0 })
      else
        let s := { s with sma := true, log := s.log ++ [PortEv.sma_create] }
        -- Create general services interface
        if ¬ env.gsi_ok then
          (-ENOMEM,
           { s with
             sma := false
             smi := false
             log := s.log ++ [PortEv.sma_destroy, PortEv.smi_destroy]
             open_count := 0 })
        else
          let s := { s with gsi := true, log := s.log ++ [PortEv.gsi_create] }
          -- Open device
          let s := { s with log := s.log ++ [PortEv.hw_open] }
          if env.open_rc ≠ 0 then
            (env.open_rc,
             { s with
               gsi := false
               sma := false
               smi := false
               log := s.log ++ [PortEv.gsi_destroy, PortEv.sma_destroy, PortEv.smi_destroy]
               open_count := 0 })
          else
            (0, { s with hw_opened := true })

/-- `ib_close`: decrement the open counter; tear down GSI, SMA, SMI and
close the hardware only when the counter reaches exactly 0. -/
def ib_close (s : PortState) : PortState :=
  let s := { s with open_count := s.open_count - 1 }
  if s.open_count = 0 then
    { s with
      gsi := false
      sma := false
      smi := false
      hw_opened := false
      log := s.log ++ [PortEv.gsi_destroy, PortEv.sma_destroy, PortEv.smi_destroy,
                       .hw_close] }
  else s

/-- Iterate `ib_open`, discarding the return codes. -/
def run_opens (env : OpenEnv) : Nat → PortState → PortState
  | 0, s => s
  | n + 1, s => run_opens env n (ib_open env s).2

/-- Iterate `ib_close`. -/
def run_closes : Nat → PortState → PortState
  | 0, s => s
  | n + 1, s => run_closes n (ib_close s)

/-! ### Multicast membership -/

/-- `ib_mcast_attach`: allocate a membership record and prepend it to the
pair's list (`list_add`), then call the hardware attach; on hardware
failure `list_del` removes the just-added record again, leaving the list
unchanged.  `alloc_ok` is whether the `zalloc` succeeds and `hw_rc` the
hardware attach result code. -/
def ib_mcast_attach (alloc_ok : Bool) (hw_rc : Int) (mgids : List Nat)
    (gid : Nat) : Int × List Nat :=
  if ¬ alloc_ok then
    (-ENOMEM, mgids)
  else if hw_rc ≠ 0 then
    (hw_rc, mgids)
  else
    (0, gid :: mgids)

/-- `ib_mcast_detach`: hardware detach (external, unconditional), then
remove and free the first membership record whose GID matches; no match
means no change. -/
def ib_mcast_detach (mgids : List Nat) (gid : Nat) : List Nat :=
  mgids.erase gid

/-- A multicast call on one queue pair, with the external outcomes of the
attach's allocation and hardware steps. -/
inductive McOp where
  | attach (gid : Nat) (alloc_ok : Bool) (hw_rc : Int)
  | detach (gid : Nat)
deriving DecidableEq, Repr

/-- Run a sequence of multicast calls against a membership list. -/
def mcast_run (ops : List McOp) (mgids : List Nat) : List Nat :=
  match ops with
  | [] => mgids
  | .attach g a r :: rest => mcast_run rest (ib_mcast_attach a r mgids g).2
  | .detach g :: rest => mcast_run rest (ib_mcast_detach mgids g)

/-- The number of entries for GID `g` that a call sequence should leave
behind: each successful attach of `g` adds one, each detach of `g` removes
one when any is present. -/
def mcast_count_spec (g : Nat) : List McOp → Nat → Nat
  | [], c => c
  | .attach g' a r :: rest, c =>
    mcast_count_spec g rest (if g' = g ∧ a = true ∧ r = 0 then c + 1 else c)
  | .detach g' :: rest, c =>
    mcast_count_spec g rest (if g' = g then c - 1 else c)

/-! ### Fill-level trace semantics for one queue pair

To reason about arbitrary interleavings of post and complete calls we run
them as a trace against the two fill counters of one queue pair, together
with ghost counters of successful posts and delivered completions per
direction. -/

/-- Fill levels of one queue pair plus ghost counters of successful posts
and delivered completions in each direction. -/
structure QPFillState where
  send_fill : Int
  recv_fill : Int
  send_posts : Nat
  send_comps : Nat
  recv_posts : Nat
  recv_comps : Nat
deriving DecidableEq, Repr

/-- A fresh queue pair: both fills zero, nothing posted or completed. -/
def fill_init : QPFillState :=
  { send_fill := 0, recv_fill := 0, send_posts := 0, send_comps := 0,
    recv_posts := 0, recv_comps := 0 }

/-- One call on the queue pair, carrying the external outcomes (hardware
result code, and the posted buffer's tailroom for receives). -/
inductive FillOp where
  | post_send (hw_rc : Int)
  | post_recv (hw_rc : Int) (tailroom : Nat)
  | complete_send
  | complete_recv
deriving DecidableEq, Repr

/-- A fixed all-zero address-vector heap; the address-vector contents are
irrelevant to fill accounting. -/
def av_heap_zero : AVHeap :=
  { caller := av_zero, qp_av := av_zero, av_copy := av_zero }

/-- Run one call against the fill state (`sn`, `rn` are the two queue
capacities), counting a post as successful exactly when the call returns
0. -/
def fill_step (sn rn : Nat) (s : QPFillState) : FillOp → QPFillState
  | .post_send hw_rc =>
    let r := ib_post_send (fun _ => hw_rc) s.send_fill sn 0 av_heap_zero true
    if r.rc = 0 then
      { s with
        send_fill := r.fill'
        send_posts := s.send_posts + 1 }
    else
      { s with send_fill := r.fill' }
  | .post_recv hw_rc tailroom =>
    let r := ib_post_recv hw_rc s.recv_fill rn tailroom
    if r.rc = 0 then
      { s with
        recv_fill := r.fill'
        recv_posts := s.recv_posts + 1 }
    else
      { s with recv_fill := r.fill' }
  | .complete_send =>
    { s with
      send_fill := (ib_complete_send true s.send_fill 0 0).fill'
      send_comps := s.send_comps + 1 }
  | .complete_recv =>
    { s with
      recv_fill := (ib_complete_recv true s.recv_fill none 0 0).fill'
      recv_comps := s.recv_comps + 1 }

/-- A completion is admissible only when it matches a prior successful
post that has not been completed yet. -/
def fill_guard (s : QPFillState) : FillOp → Bool
  | .complete_send => decide (s.send_comps < s.send_posts)
  | .complete_recv => decide (s.recv_comps < s.recv_posts)
  | .post_send _ => true
  | .post_recv _ _ => true

/-- A trace in which every completion matches a prior successful post. -/
def fill_trace_ok (sn rn : Nat) (s : QPFillState) : List FillOp → Bool
  | [] => true
  | op :: rest =>
    fill_guard s op && fill_trace_ok sn rn (fill_step sn rn s op) rest

/-- Run a whole trace. -/
def fill_run (sn rn : Nat) (s : QPFillState) : List FillOp → QPFillState
  | [] => s
  | op :: rest => fill_run sn rn (fill_step sn rn s op) rest

/-- The fill invariant: each fill count equals successful posts minus
delivered completions, is never negative and never exceeds the queue's
capacity. -/
def fill_inv (sn rn : Nat) (s : QPFillState) : Prop :=
  s.send_fill = (s.send_posts : Int) - (s.send_comps : Int) ∧
  s.recv_fill = (s.recv_posts : Int) - (s.recv_comps : Int) ∧
  0 ≤ s.send_fill ∧ s.send_fill ≤ (sn : Int) ∧
  0 ≤ s.recv_fill ∧ s.recv_fill ≤ (rn : Int)

/-! ### Helper lemmas -/

/-- The optional-field defaulting applied to the copied address vector:
queue key from the pair's default when unset, baseline rate when unset. -/
def av_fill_defaults (qk : Nat) (a : ib_address_vector) :
    ib_address_vector :=
  let a1 := if a.qkey = 0 then { a with qkey := qk } else a
  if a1.rate = 0 then { a1 with rate := IB_RATE_2_5 } else a1

/-- The address vector the hardware post operation receives: the defaulted
copy of the caller's vector, or of `qp->av` when the caller passed NULL. -/
def post_send_hw_av (qk : Nat) (heap : AVHeap) (av_is_null : Bool) :
    ib_address_vector :=
  av_fill_defaults qk (if av_is_null then heap.qp_av else heap.caller)

theorem ib_post_send_eq (hw : ib_address_vector → Int) (f : Int) (n : Nat)
    (qk : Nat) (heap : AVHeap) (b : Bool) :
    ib_post_send hw f n qk heap b =
      if f ≥ (n : Int) then
        { rc := -ENOBUFS, fill' := f, hw_called := false, hw_av := none,
          heap' := heap }
      else if hw (post_send_hw_av qk heap b) ≠ 0 then
        { rc := hw (post_send_hw_av qk heap b), fill' := f, hw_called := true,
          hw_av := some (post_send_hw_av qk heap b),
          heap' := heap.write .av_copy (post_send_hw_av qk heap b) }
      else
        { rc := 0, fill' := f + 1, hw_called := true,
          hw_av := some (post_send_hw_av qk heap b),
          heap' := heap.write .av_copy (post_send_hw_av qk heap b) } := by
  unfold ib_post_send post_send_hw_av av_fill_defaults
  cases b <;>
    simp only [AVHeap.read, AVHeap.write, if_true, if_false, Bool.false_eq_true,
      ite_true, ite_false] <;>
    split_ifs <;> rfl

/-- Either a send post succeeds, incrementing fill and requiring room, or
it fails with a nonzero code and leaves fill alone. -/
theorem ib_post_send_fill_cases (hw : ib_address_vector → Int) (f : Int)
    (n : Nat) (qk : Nat) (heap : AVHeap) (b : Bool) :
    ((ib_post_send hw f n qk heap b).rc = 0 ∧
     (ib_post_send hw f n qk heap b).fill' = f + 1 ∧ f < (n : Int)) ∨
    ((ib_post_send hw f n qk heap b).rc ≠ 0 ∧
     (ib_post_send hw f n qk heap b).fill' = f) := by
  rw [ib_post_send_eq]
  split_ifs with h1 h2
  · right
    refine ⟨?_, rfl⟩
    norm_num [ENOBUFS]
  · right
    exact ⟨h2, rfl⟩
  · left
    exact ⟨rfl, rfl, by omega⟩

/-- Either a receive post succeeds, incrementing fill and requiring room,
or it fails with a nonzero code and leaves fill alone. -/
theorem ib_post_recv_fill_cases (hw_rc : Int) (f : Int) (n : Nat)
    (tailroom : Nat) :
    ((ib_post_recv hw_rc f n tailroom).rc = 0 ∧
     (ib_post_recv hw_rc f n tailroom).fill' = f + 1 ∧ f < (n : Int)) ∨
    ((ib_post_recv hw_rc f n tailroom).rc ≠ 0 ∧
     (ib_post_recv hw_rc f n tailroom).fill' = f) := by
  unfold ib_post_recv
  split_ifs with h1 h2 h3
  · right
    refine ⟨?_, rfl⟩
    norm_num [EINVAL]
  · right
    refine ⟨?_, rfl⟩
    norm_num [ENOBUFS]
  · right
    exact ⟨h3, rfl⟩
  · left
    exact ⟨rfl, rfl, by omega⟩

/-- One admissible call preserves the fill invariant. -/
theorem fill_step_preserves (sn rn : Nat) (s : QPFillState) (op : FillOp)
    (hinv : fill_inv sn rn s) (hg : fill_guard s op = true) :
    fill_inv sn rn (fill_step sn rn s op) := by
  obtain ⟨h1, h2, h3, h4, h5, h6⟩ := hinv
  cases op with
  | post_send hw_rc =>
    simp only [fill_step]
    rcases ib_post_send_fill_cases (fun _ => hw_rc) s.send_fill sn 0
        av_heap_zero true with ⟨hrc, hf, hlt⟩ | ⟨hrc, hf⟩
    · rw [if_pos hrc]
      unfold fill_inv
      dsimp only
      rw [hf]
      refine ⟨by push_cast; omega, h2, by omega, by omega, h5, h6⟩
    · rw [if_neg hrc]
      unfold fill_inv
      dsimp only
      rw [hf]
      exact ⟨h1, h2, h3, h4, h5, h6⟩
  | post_recv hw_rc tailroom =>
    simp only [fill_step]
    rcases ib_post_recv_fill_cases hw_rc s.recv_fill rn tailroom with
      ⟨hrc, hf, hlt⟩ | ⟨hrc, hf⟩
    · rw [if_pos hrc]
      unfold fill_inv
      dsimp only
      rw [hf]
      refine ⟨h1, by push_cast; omega, h3, h4, by omega, by omega⟩
    · rw [if_neg hrc]
      unfold fill_inv
      dsimp only
      rw [hf]
      exact ⟨h1, h2, h3, h4, h5, h6⟩
  | complete_send =>
    simp only [fill_guard, decide_eq_true_eq] at hg
    unfold fill_step fill_inv ib_complete_send
    dsimp only
    refine ⟨by push_cast; omega, h2, by omega, by omega, h5, h6⟩
  | complete_recv =>
    simp only [fill_guard, decide_eq_true_eq] at hg
    unfold fill_step fill_inv ib_complete_recv
    dsimp only
    refine ⟨h1, by push_cast; omega, h3, h4, by omega, by omega⟩

/-- Running an admissible trace preserves the fill invariant. -/
theorem fill_run_preserves (sn rn : Nat) :
    ∀ (ops : List FillOp) (s : QPFillState), fill_inv sn rn s →
      fill_trace_ok sn rn s ops = true →
      fill_inv sn rn (fill_run sn rn s ops)
  | [], _, h, _ => h
  | op :: rest, s, h, hok => by
    simp only [fill_trace_ok, Bool.and_eq_true] at hok
    simp only [fill_run]
    exact fill_run_preserves sn rn rest _
      (fill_step_preserves sn rn s op h hok.1) hok.2

/-- Every prefix of an admissible trace is admissible. -/
theorem fill_trace_ok_append (sn rn : Nat) :
    ∀ (pre suf : List FillOp) (s : QPFillState),
      fill_trace_ok sn rn s (pre ++ suf) = true →
      fill_trace_ok sn rn s pre = true ∧
      fill_trace_ok sn rn (fill_run sn rn s pre) suf = true
  | [], _, _, h => ⟨rfl, h⟩
  | op :: pre, suf, s, h => by
    simp only [List.cons_append, fill_trace_ok, Bool.and_eq_true] at h
    have ih := fill_trace_ok_append sn rn pre suf _ h.2
    simp only [fill_trace_ok, Bool.and_eq_true, fill_run]
    exact ⟨⟨h.1, ih.1⟩, ih.2⟩

/-- The fresh queue pair satisfies the fill invariant. -/
theorem fill_init_inv (sn rn : Nat) : fill_inv sn rn fill_init := by
  unfold fill_inv fill_init
  norm_num

/-- Claim C1: along every sequence of post and complete calls on one
queue pair in which every completion matches a prior successful post, at
every intermediate point each work queue's fill count equals the number of
successful posts minus the number of completions delivered, never goes
negative, and never exceeds the queue's capacity. -/
theorem wq_fill_invariant (sn rn : Nat) (ops pre suf : List FillOp)
    (hsplit : ops = pre ++ suf)
    (hok : fill_trace_ok sn rn fill_init ops = true) :
    fill_inv sn rn (fill_run sn rn fill_init pre) := by
  subst hsplit
  have h := fill_trace_ok_append sn rn pre suf fill_init hok
  exact fill_run_preserves sn rn pre fill_init (fill_init_inv sn rn) h.1

/-- Witness for C1 at a concrete trace: post then complete on a
1-entry queue. -/
theorem wq_fill_invariant_witness :
    ([FillOp.post_send 0, FillOp.complete_send] =
      [FillOp.post_send 0] ++ [FillOp.complete_send]) ∧
    fill_trace_ok 1 1 fill_init
      [FillOp.post_send 0, FillOp.complete_send] = true ∧
    fill_inv 1 1 (fill_run 1 1 fill_init [FillOp.post_send 0]) :=
  ⟨rfl, by decide,
   wq_fill_invariant 1 1 [FillOp.post_send 0, FillOp.complete_send]
     [FillOp.post_send 0] [FillOp.complete_send] rfl (by decide)⟩

/-- Claim C5 counterexample: posting an undersized buffer to a full
receive queue fails with `-EINVAL`, not with the queue-full status
`-ENOBUFS` — the length check precedes the fill check in
`ib_post_recv`. -/
theorem post_recv_full_undersized_not_enobufs :
    (ib_post_recv 0 1 1 0).rc = -EINVAL ∧
    (ib_post_recv 0 1 1 0).rc ≠ -ENOBUFS ∧
    (ib_post_recv 0 1 1 0).hw_called = false ∧
    (ib_post_recv 0 1 1 0).fill' = 1 := by
  refine ⟨rfl, by decide, rfl, rfl⟩

/-- Claim C5 (amended): posting to a work queue whose fill count equals
its capacity fails with `-ENOBUFS`, does not invoke the hardware post
operation and leaves the fill count unchanged — unconditionally for the
send direction, and for the receive direction provided the buffer has the
required tailroom (an undersized receive buffer is rejected as `-EINVAL`
first, likewise without reaching hardware or changing the fill count). -/
theorem post_at_capacity_enobufs (hw : ib_address_vector → Int)
    (hw_rc : Int) (heap : AVHeap) (b : Bool) (sn rn : Nat)
    (qk tailroom : Nat) (sf rf : Int)
    (hsf : sf = (sn : Int)) (hrf : rf = (rn : Int))
    (ht : IB_MAX_PAYLOAD_SIZE ≤ tailroom) :
    (ib_post_send hw sf sn qk heap b).rc = -ENOBUFS ∧
    (ib_post_send hw sf sn qk heap b).hw_called = false ∧
    (ib_post_send hw sf sn qk heap b).fill' = sf ∧
    (ib_post_recv hw_rc rf rn tailroom).rc = -ENOBUFS ∧
    (ib_post_recv hw_rc rf rn tailroom).hw_called = false ∧
    (ib_post_recv hw_rc rf rn tailroom).fill' = rf := by
  subst hsf
  subst hrf
  have hs : ib_post_send hw ((sn : Nat) : Int) sn qk heap b =
      { rc := -ENOBUFS, fill' := ((sn : Nat) : Int), hw_called := false,
        hw_av := none, heap' := heap } := by
    rw [ib_post_send_eq, if_pos (le_refl _)]
  have hr : ib_post_recv hw_rc ((rn : Nat) : Int) rn tailroom =
      { rc := -ENOBUFS, fill' := ((rn : Nat) : Int), hw_called := false } := by
    unfold ib_post_recv
    rw [if_neg (Nat.not_lt.mpr ht), if_pos (le_refl _)]
  rw [hs, hr]
  exact ⟨rfl, rfl, rfl, rfl, rfl, rfl⟩

/-- Witness for the amended C5 at capacity 1 and a correctly sized
buffer. -/
theorem post_at_capacity_enobufs_witness :
    ((1 : Int) = ((1 : Nat) : Int)) ∧ IB_MAX_PAYLOAD_SIZE ≤ 2048 ∧
    ((ib_post_send (fun _ => 0) 1 1 0 av_heap_zero true).rc = -ENOBUFS ∧
     (ib_post_send (fun _ => 0) 1 1 0 av_heap_zero true).hw_called = false ∧
     (ib_post_send (fun _ => 0) 1 1 0 av_heap_zero true).fill' = 1 ∧
     (ib_post_recv 0 1 1 2048).rc = -ENOBUFS ∧
     (ib_post_recv 0 1 1 2048).hw_called = false ∧
     (ib_post_recv 0 1 1 2048).fill' = 1) :=
  ⟨by norm_num, by decide,
   post_at_capacity_enobufs (fun _ => 0) 0 av_heap_zero true 1 1 0 2048 1 1
     (by norm_num) (by norm_num) (by decide)⟩

/-- Claim C9: `ib_post_send` never modifies the caller's address vector
nor the pair's stored default; the defaulting happens on the private copy,
and that defaulted copy is what the hardware post operation receives. -/
theorem post_send_frame (hw : ib_address_vector → Int) (f : Int) (n : Nat)
    (qk : Nat) (heap : AVHeap) (b : Bool) :
    (ib_post_send hw f n qk heap b).heap'.caller = heap.caller ∧
    (ib_post_send hw f n qk heap b).heap'.qp_av = heap.qp_av ∧
    ((ib_post_send hw f n qk heap b).hw_called = true →
      (ib_post_send hw f n qk heap b).hw_av =
        some (post_send_hw_av qk heap b)) := by
  rw [ib_post_send_eq]
  split_ifs with h1 h2 <;> simp [AVHeap.write]

/-- Witness for C9 at a concrete call with a caller-supplied vector. -/
theorem post_send_frame_witness :
    (ib_post_send (fun _ => 0) 0 1 5 av_heap_zero false).heap'.caller =
      av_heap_zero.caller ∧
    (ib_post_send (fun _ => 0) 0 1 5 av_heap_zero false).heap'.qp_av =
      av_heap_zero.qp_av ∧
    ((ib_post_send (fun _ => 0) 0 1 5 av_heap_zero false).hw_called = true →
      (ib_post_send (fun _ => 0) 0 1 5 av_heap_zero false).hw_av =
        some (post_send_hw_av 5 av_heap_zero false)) :=
  post_send_frame (fun _ => 0) 0 1 5 av_heap_zero false

/-- Claim C10: a zero queue key (or rate) in a caller-supplied address
vector is treated as unset — the hardware receives the pair's default
queue key (or the baseline rate) instead, so an explicit zero queue key
cannot be sent. -/
theorem post_send_zero_qkey_replaced (hw : ib_address_vector → Int)
    (f : Int) (n : Nat) (qk : Nat) (heap : AVHeap)
    (hroom : f < (n : Int)) (hqk : heap.caller.qkey = 0) :
    (ib_post_send hw f n qk heap false).hw_called = true ∧
    (ib_post_send hw f n qk heap false).hw_av =
      some (post_send_hw_av qk heap false) ∧
    (post_send_hw_av qk heap false).qkey = qk ∧
    (heap.caller.rate = 0 →
      (post_send_hw_av qk heap false).rate = IB_RATE_2_5) := by
  have h1 : ¬ f ≥ (n : Int) := by omega
  rw [ib_post_send_eq, if_neg h1]
  refine ⟨?_, ?_, ?_, ?_⟩
  · split_ifs <;> rfl
  · split_ifs <;> rfl
  · unfold post_send_hw_av av_fill_defaults
    simp only [if_false, ite_false, Bool.false_eq_true]
    rw [if_pos hqk]
    split_ifs <;> rfl
  · intro hrate
    unfold post_send_hw_av av_fill_defaults
    simp only [if_false, ite_false, Bool.false_eq_true]
    rw [if_pos hqk]
    rw [if_pos (by simpa using hrate)]

/-- Witness for C10: caller vector with zero queue key and zero rate. -/
theorem post_send_zero_qkey_replaced_witness :
    ((0 : Int) < ((1 : Nat) : Int)) ∧
    (AVHeap.caller { caller := { lid := 9, sl := 8, rate := 0, qkey := 0 },
                     qp_av := av_zero, av_copy := av_zero }).qkey = 0 ∧
    ((ib_post_send (fun _ => 0) 0 1 7
        { caller := { lid := 9, sl := 8, rate := 0, qkey := 0 },
          qp_av := av_zero, av_copy := av_zero } false).hw_called = true ∧
     (ib_post_send (fun _ => 0) 0 1 7
        { caller := { lid := 9, sl := 8, rate := 0, qkey := 0 },
          qp_av := av_zero, av_copy := av_zero } false).hw_av =
       some (post_send_hw_av 7
        { caller := { lid := 9, sl := 8, rate := 0, qkey := 0 },
          qp_av := av_zero, av_copy := av_zero } false) ∧
     (post_send_hw_av 7
        { caller := { lid := 9, sl := 8, rate := 0, qkey := 0 },
          qp_av := av_zero, av_copy := av_zero } false).qkey = 7 ∧
     ((AVHeap.caller { caller := { lid := 9, sl := 8, rate := 0, qkey := 0 },
                       qp_av := av_zero, av_copy := av_zero }).rate = 0 →
      (post_send_hw_av 7
        { caller := { lid := 9, sl := 8, rate := 0, qkey := 0 },
          qp_av := av_zero, av_copy := av_zero } false).rate = IB_RATE_2_5)) :=
  ⟨by norm_num, rfl,
   post_send_zero_qkey_replaced (fun _ => 0) 0 1 7
     { caller := { lid := 9, sl := 8, rate := 0, qkey := 0 },
       qp_av := av_zero, av_copy := av_zero } (by norm_num) rfl⟩

/-- The send-side cancellation walk emits one completion per non-empty
slot, every one a cancelled send completion. -/
theorem cancel_send_walk_events (has_cb : Bool) :
    ∀ (slots : List (Option Nat)) (fill : Int),
      (cancel_send_walk has_cb slots fill).1.length =
        (slots.filterMap id).length ∧
      ∀ e ∈ (cancel_send_walk has_cb slots fill).1,
        e.rc = -ECANCELED ∧ e.is_send = true
  | [], fill => by
    simp [cancel_send_walk]
  | none :: rest, fill => by
    have ih := cancel_send_walk_events has_cb rest fill
    simpa [cancel_send_walk] using ih
  | some b :: rest, fill => by
    have ih := cancel_send_walk_events has_cb rest (fill - 1)
    refine ⟨?_, ?_⟩
    · simp [cancel_send_walk, ib_complete_send, ih.1]
    · intro e he
      simp only [cancel_send_walk, ib_complete_send, List.mem_cons] at he
      rcases he with rfl | he
      · exact ⟨rfl, rfl⟩
      · exact ih.2 e he

/-- The receive-side cancellation walk emits one completion per non-empty
slot, every one a cancelled receive completion. -/
theorem cancel_recv_walk_events (has_cb : Bool) :
    ∀ (slots : List (Option Nat)) (fill : Int),
      (cancel_recv_walk has_cb slots fill).1.length =
        (slots.filterMap id).length ∧
      ∀ e ∈ (cancel_recv_walk has_cb slots fill).1,
        e.rc = -ECANCELED ∧ e.is_send = false
  | [], fill => by
    simp [cancel_recv_walk]
  | none :: rest, fill => by
    have ih := cancel_recv_walk_events has_cb rest fill
    simpa [cancel_recv_walk] using ih
  | some b :: rest, fill => by
    have ih := cancel_recv_walk_events has_cb rest (fill - 1)
    refine ⟨?_, ?_⟩
    · simp [cancel_recv_walk, ib_complete_recv, ih.1]
    · intro e he
      simp only [cancel_recv_walk, ib_complete_recv, List.mem_cons] at he
      rcases he with rfl | he
      · exact ⟨rfl, rfl⟩
      · exact ih.2 e he

/-- Claim C2: destroying a queue pair with N non-empty send slots and M
non-empty receive slots delivers exactly N send completions and M receive
completions, all with the cancellation status `-ECANCELED`, and afterwards
number lookup can no longer return the destroyed pair, under either of its
numbers. -/
theorem destroy_qp_cancels (has_send_cb has_recv_cb : Bool)
    (qps : List ib_queue_pair) (qp : ib_queue_pair)
    (hmem : qp ∈ qps) (hmg : qp.mgids = []) :
    ((ib_destroy_qp has_send_cb has_recv_cb qps qp).1.filter
        (fun e => e.is_send)).length =
      (qp.send.iobufs.filterMap id).length ∧
    ((ib_destroy_qp has_send_cb has_recv_cb qps qp).1.filter
        (fun e => ! e.is_send)).length =
      (qp.recv.iobufs.filterMap id).length ∧
    (∀ e ∈ (ib_destroy_qp has_send_cb has_recv_cb qps qp).1,
      e.rc = -ECANCELED) ∧
    (∀ (n : Nat) (q : ib_queue_pair),
      ib_find_qp_qpn (ib_destroy_qp has_send_cb has_recv_cb qps qp).2 n =
        some q → q.id ≠ qp.id) := by
  have hs := cancel_send_walk_events has_send_cb qp.send.iobufs qp.send.fill
  have hr := cancel_recv_walk_events has_recv_cb qp.recv.iobufs qp.recv.fill
  unfold ib_destroy_qp
  dsimp only
  refine ⟨?_, ?_, ?_, ?_⟩
  · rw [List.filter_append]
    rw [List.filter_eq_self.mpr (fun e he => (hs.2 e he).2),
        List.filter_eq_nil_iff.mpr
          (fun e he => by simp [(hr.2 e he).2]),
        List.append_nil]
    exact hs.1
  · rw [List.filter_append]
    rw [List.filter_eq_nil_iff.mpr
          (fun e he => by simp [(hs.2 e he).2]),
        List.nil_append,
        List.filter_eq_self.mpr
          (fun e he => by simp [(hr.2 e he).2])]
    exact hr.1
  · intro e he
    rcases List.mem_append.mp he with h | h
    · exact (hs.2 e h).1
    · exact (hr.2 e h).1
  · intro n q hfind
    have hqmem := List.mem_of_find?_eq_some hfind
    have hpred := List.mem_filter.mp hqmem
    simpa using hpred.2

/-- Concrete queue pair for the C2 witness: one of two send slots and both
receive slots still hold buffers. -/
def qp_w : ib_queue_pair :=
  { id := 3
    type := .IB_QPT_UD
    qpn := 9
    ext_qpn := 9
    qkey := 0
    av := av_zero
    send := { num_wqes := 2, fill := 1, iobufs := [some 11, none] }
    recv := { num_wqes := 2, fill := 2, iobufs := [some 21, some 22] }
    mgids := [] }

/-- Witness for C2 on a device holding `qp_w` alone. -/
theorem destroy_qp_cancels_witness :
    qp_w ∈ [qp_w] ∧ qp_w.mgids = [] ∧
    (((ib_destroy_qp true true [qp_w] qp_w).1.filter
        (fun e => e.is_send)).length =
      (qp_w.send.iobufs.filterMap id).length ∧
     ((ib_destroy_qp true true [qp_w] qp_w).1.filter
        (fun e => ! e.is_send)).length =
      (qp_w.recv.iobufs.filterMap id).length ∧
     (∀ e ∈ (ib_destroy_qp true true [qp_w] qp_w).1,
       e.rc = -ECANCELED) ∧
     (∀ (n : Nat) (q : ib_queue_pair),
       ib_find_qp_qpn (ib_destroy_qp true true [qp_w] qp_w).2 n =
         some q → q.id ≠ qp_w.id)) :=
  ⟨List.mem_singleton.mpr rfl, rfl,
   destroy_qp_cancels true true [qp_w] qp_w
     (List.mem_singleton.mpr rfl) rfl⟩

/-- An `ib_open` on an already-open device only increments the counter:
no creation, no teardown, no log entries, and it returns success. -/
theorem ib_open_already (env : OpenEnv) (s : PortState)
    (h : 0 < s.open_count) :
    ib_open env s = (0, { s with open_count := s.open_count + 1 }) := by
  simp only [ib_open]
  rw [if_pos h]

/-- An `ib_close` that leaves the counter above zero only decrements. -/
theorem ib_close_intermediate (s : PortState) (h : 1 < s.open_count) :
    ib_close s = { s with open_count := s.open_count - 1 } := by
  simp only [ib_close]
  rw [if_neg (by omega : ¬ s.open_count - 1 = 0)]

/-- Iterated opens on an open device only add to the counter. -/
theorem run_opens_already (env : OpenEnv) :
    ∀ (n : Nat) (s : PortState), 0 < s.open_count →
      run_opens env n s = { s with open_count := s.open_count + (n : Int) }
  | 0, s, _ => by
    simp [run_opens]
  | n + 1, s, h => by
    rw [run_opens, ib_open_already env s h]
    dsimp only
    rw [run_opens_already env n _ (by dsimp only; omega)]
    dsimp only
    rw [show s.open_count + 1 + (n : Int) = s.open_count + ((n : Nat) + 1 : Nat)
      from by push_cast; ring]

/-- Iterated closes that keep the counter positive only subtract. -/
theorem run_closes_intermediate :
    ∀ (n : Nat) (s : PortState), (n : Int) < s.open_count →
      run_closes n s = { s with open_count := s.open_count - (n : Int) }
  | 0, s, _ => by
    simp [run_closes]
  | n + 1, s, h => by
    rw [run_closes, ib_close_intermediate s (by push_cast at h; omega)]
    rw [run_closes_intermediate n _ (by dsimp only; push_cast at h ⊢; omega)]
    dsimp only
    rw [show s.open_count - 1 - (n : Int) = s.open_count - ((n : Nat) + 1 : Nat)
      from by push_cast; ring]

/-- Splitting an iterated close. -/
theorem run_closes_add (a b : Nat) :
    ∀ s : PortState, run_closes (a + b) s = run_closes b (run_closes a s) := by
  induction a with
  | zero =>
    intro s
    simp [run_closes]
  | succ a ih =>
    intro s
    calc run_closes (a + 1 + b) s = run_closes (a + b + 1) s := by
          rw [Nat.add_right_comm]
      _ = run_closes (a + b) (ib_close s) := rfl
      _ = run_closes b (run_closes a (ib_close s)) := ih _
      _ = run_closes b (run_closes (a + 1) s) := rfl

/-- Claim C3: opening a closed device k > 0 times (all succeeding) and
then closing it k times invokes the hardware open exactly once and the
hardware close exactly once, creates and tears down the management
interfaces exactly once (the final log), and every intermediate open or
close only changes the open-reference counter. -/
theorem open_close_once (env : OpenEnv) (k : Nat) (hk : 0 < k)
    (h1 : env.smi_ok = true) (h2 : env.sma_rc = 0)
    (h3 : env.gsi_ok = true) (h4 : env.open_rc = 0) :
    (ib_open env ib_port_init).1 = 0 ∧
    (run_opens env k ib_port_init).log =
      [PortEv.smi_create, PortEv.sma_create, PortEv.gsi_create,
       PortEv.hw_open] ∧
    (run_opens env k ib_port_init).open_count = (k : Int) ∧
    (run_opens env k ib_port_init).hw_opened = true ∧
    (run_closes k (run_opens env k ib_port_init)).log =
      [PortEv.smi_create, PortEv.sma_create, PortEv.gsi_create,
       PortEv.hw_open, PortEv.gsi_destroy, PortEv.sma_destroy,
       PortEv.smi_destroy, PortEv.hw_close] ∧
    (run_closes k (run_opens env k ib_port_init)).open_count = 0 ∧
    (run_closes k (run_opens env k ib_port_init)).hw_opened = false ∧
    (run_closes k (run_opens env k ib_port_init)).log.count
      PortEv.hw_open = 1 ∧
    (run_closes k (run_opens env k ib_port_init)).log.count
      PortEv.hw_close = 1 ∧
    (∀ s : PortState, 0 < s.open_count →
      ib_open env s = (0, { s with open_count := s.open_count + 1 })) ∧
    (∀ s : PortState, 1 < s.open_count →
      ib_close s = { s with open_count := s.open_count - 1 }) := by
  obtain ⟨e1, e2, e3, e4⟩ := env
  dsimp only at h1 h2 h3 h4
  subst h1
  subst h2
  subst h3
  subst h4
  obtain ⟨j, rfl⟩ : ∃ j, k = j + 1 := ⟨k - 1, by omega⟩
  have hfirst : ib_open (⟨true, 0, true, 0⟩ : OpenEnv) ib_port_init =
      (0, ⟨1, true, true, true, true,
           [PortEv.smi_create, PortEv.sma_create, PortEv.gsi_create,
            PortEv.hw_open]⟩) := by decide
  have hS1 : run_opens ⟨true, 0, true, 0⟩ (j + 1) ib_port_init =
      ⟨1 + (j : Int), true, true, true, true,
       [PortEv.smi_create, PortEv.sma_create, PortEv.gsi_create,
        PortEv.hw_open]⟩ := by
    show run_opens _ j (ib_open _ ib_port_init).2 = _
    rw [hfirst]
    dsimp only
    rw [run_opens_already _ j _ (by norm_num)]
  have hmid : run_closes j
      (⟨1 + (j : Int), true, true, true, true,
        [PortEv.smi_create, PortEv.sma_create, PortEv.gsi_create,
         PortEv.hw_open]⟩ : PortState) =
      ⟨1, true, true, true, true,
       [PortEv.smi_create, PortEv.sma_create, PortEv.gsi_create,
        PortEv.hw_open]⟩ := by
    rw [run_closes_intermediate j _ (by dsimp only; omega)]
    dsimp only
    rw [show (1 : Int) + (j : Int) - (j : Int) = 1 from by ring]
  have hS2 : run_closes (j + 1) (run_opens ⟨true, 0, true, 0⟩ (j + 1)
      ib_port_init) =
      ⟨0, false, false, false, false,
       [PortEv.smi_create, PortEv.sma_create, PortEv.gsi_create,
        PortEv.hw_open, PortEv.gsi_destroy, PortEv.sma_destroy,
        PortEv.smi_destroy, PortEv.hw_close]⟩ := by
    rw [hS1, run_closes_add j 1, hmid]
    decide
  refine ⟨?_, ?_, ?_, ?_, ?_, ?_, ?_, ?_, ?_, ?_, ?_⟩
  · rw [hfirst]
  · rw [hS1]
  · rw [hS1]
    push_cast
    ring
  · rw [hS1]
  · rw [hS2]
  · rw [hS2]
  · rw [hS2]
  · rw [hS2]
    decide
  · rw [hS2]
    decide
  · intro s hs
    exact ib_open_already _ s hs
  · intro s hs
    exact ib_close_intermediate s hs

/-- Witness for C3 at k = 2. -/
theorem open_close_once_witness :
    (0 < 2 ∧ OpenEnv.smi_ok ⟨true, 0, true, 0⟩ = true ∧
     OpenEnv.sma_rc ⟨true, 0, true, 0⟩ = 0 ∧
     OpenEnv.gsi_ok ⟨true, 0, true, 0⟩ = true ∧
     OpenEnv.open_rc ⟨true, 0, true, 0⟩ = 0) ∧
    (run_closes 2 (run_opens ⟨true, 0, true, 0⟩ 2 ib_port_init)).log.count
      PortEv.hw_open = 1 ∧
    (run_closes 2 (run_opens ⟨true, 0, true, 0⟩ 2 ib_port_init)).log.count
      PortEv.hw_close = 1 :=
  ⟨⟨by norm_num, rfl, rfl, rfl, rfl⟩,
   ((open_close_once ⟨true, 0, true, 0⟩ 2 (by norm_num) rfl rfl rfl
      rfl).2.2.2.2.2.2.2).1,
   ((open_close_once ⟨true, 0, true, 0⟩ 2 (by norm_num) rfl rfl rfl
      rfl).2.2.2.2.2.2.2).2.1⟩

/-- Claim C4: if any step of a first `ib_open` on a closed device fails
(SMI creation, SMA creation, GSI creation, or the hardware open), the call
returns a failure status and leaves the device fully closed — reference
count 0, no interfaces, hardware closed — after tearing down exactly what
the call had created, in reverse creation order (visible in the appended
log events). -/
theorem ib_open_failure_unwinds (env : OpenEnv) (s : PortState)
    (hoc : s.open_count = 0) (hsmi : s.smi = false) (hsma : s.sma = false)
    (hgsi : s.gsi = false) (hhw : s.hw_opened = false) :
    (env.smi_ok = false → ib_open env s = (-ENOMEM, s)) ∧
    (env.smi_ok = true → env.sma_rc ≠ 0 →
      ib_open env s = (env.sma_rc,
        { s with log := s.log ++ [PortEv.smi_create, PortEv.smi_destroy] })) ∧
    (env.smi_ok = true → env.sma_rc = 0 → env.gsi_ok = false →
      ib_open env s = (-ENOMEM,
        { s with log := s.log ++ [PortEv.smi_create, PortEv.sma_create,
          PortEv.sma_destroy, PortEv.smi_destroy] })) ∧
    (env.smi_ok = true → env.sma_rc = 0 → env.gsi_ok = true →
      env.open_rc ≠ 0 →
      ib_open env s = (env.open_rc,
        { s with log := s.log ++ [PortEv.smi_create, PortEv.sma_create,
          PortEv.gsi_create, PortEv.hw_open, PortEv.gsi_destroy,
          PortEv.sma_destroy, PortEv.smi_destroy] })) ∧
    -ENOMEM ≠ (0 : Int) := by
  obtain ⟨oc, a1, a2, a3, a4, l⟩ := s
  dsimp only at hoc hsmi hsma hgsi hhw
  subst hoc
  subst hsmi
  subst hsma
  subst hgsi
  subst hhw
  obtain ⟨e1, e2, e3, e4⟩ := env
  refine ⟨?_, ?_, ?_, ?_, by norm_num [ENOMEM]⟩
  · intro h
    dsimp only at h
    subst h
    simp [ib_open]
  · intro h hrc
    dsimp only at h hrc
    subst h
    simp [ib_open, hrc]
  · intro h hrc hg
    dsimp only at h hrc hg
    subst h
    subst hrc
    subst hg
    simp [ib_open]
  · intro h hrc hg ho
    dsimp only at h hrc hg ho
    subst h
    subst hrc
    subst hg
    simp [ib_open, ho]

/-- Witness for C4: the hardware open fails on an otherwise successful
first open of a fresh device. -/
theorem ib_open_failure_unwinds_witness :
    PortState.open_count ib_port_init = 0 ∧
    PortState.smi ib_port_init = false ∧
    PortState.sma ib_port_init = false ∧
    PortState.gsi ib_port_init = false ∧
    PortState.hw_opened ib_port_init = false ∧
    (OpenEnv.smi_ok ⟨true, 0, true, 7⟩ = true ∧
     OpenEnv.sma_rc ⟨true, 0, true, 7⟩ = 0 ∧
     OpenEnv.gsi_ok ⟨true, 0, true, 7⟩ = true ∧
     OpenEnv.open_rc ⟨true, 0, true, 7⟩ ≠ 0) ∧
    ib_open ⟨true, 0, true, 7⟩ ib_port_init =
      (OpenEnv.open_rc ⟨true, 0, true, 7⟩,
       { ib_port_init with log := (PortState.log ib_port_init) ++
           [PortEv.smi_create, PortEv.sma_create, PortEv.gsi_create,
            PortEv.hw_open, PortEv.gsi_destroy, PortEv.sma_destroy,
            PortEv.smi_destroy] }) :=
  ⟨rfl, rfl, rfl, rfl, rfl, ⟨rfl, rfl, rfl, by norm_num⟩,
   (ib_open_failure_unwinds ⟨true, 0, true, 7⟩ ib_port_init rfl rfl rfl rfl
      rfl).2.2.2.1 rfl rfl rfl (by norm_num)⟩

/-- Claim C6 counterexample: two successful attaches of the same GID leave
two membership entries for that GID — `ib_mcast_attach` never checks for
an existing membership, so "at most one entry per distinct group
identifier" fails on a reachable state. -/
theorem mcast_attach_duplicate_entries :
    mcast_run [McOp.attach 7 true 0, McOp.attach 7 true 0] [] = [7, 7] ∧
    ¬ (mcast_run [McOp.attach 7 true 0, McOp.attach 7 true 0] []).count 7
        ≤ 1 := by
  exact ⟨rfl, by decide⟩

/-- Multiset accounting of the membership list under any call sequence. -/
theorem mcast_run_count (g : Nat) :
    ∀ (ops : List McOp) (l : List Nat),
      (mcast_run ops l).count g = mcast_count_spec g ops (l.count g)
  | [], _ => rfl
  | .attach g' a r :: rest, l => by
    by_cases ha : a = true
    · by_cases hr : r = 0
      · by_cases hg : g' = g
        · subst ha
          subst hr
          subst hg
          simp only [mcast_run, ib_mcast_attach, mcast_count_spec]
          norm_num
          rw [mcast_run_count g' rest (g' :: l), List.count_cons_self]
        · subst ha
          subst hr
          simp only [mcast_run, ib_mcast_attach, mcast_count_spec]
          norm_num [hg]
          rw [mcast_run_count g rest (g' :: l),
              List.count_cons_of_ne (Ne.symm hg)]
      · subst ha
        simp only [mcast_run, ib_mcast_attach, mcast_count_spec]
        norm_num [hr]
        exact mcast_run_count g rest l
    · have ha' : a = false := by
        revert ha
        cases a <;> simp
      subst ha'
      simp only [mcast_run, ib_mcast_attach, mcast_count_spec]
      norm_num
      exact mcast_run_count g rest l
  | .detach g' :: rest, l => by
    by_cases hg : g' = g
    · subst hg
      simp only [mcast_run, ib_mcast_detach, mcast_count_spec]
      norm_num
      rw [mcast_run_count g' rest (l.erase g'), List.count_erase_self]
    · simp only [mcast_run, ib_mcast_detach, mcast_count_spec]
      norm_num [hg]
      rw [mcast_run_count g rest (l.erase g'),
          List.count_erase_of_ne (Ne.symm hg)]

/-- Claim C6 (amended): after any sequence of attach/detach calls from an
empty membership collection, the number of entries carrying GID g equals
the number of successful attaches of g minus the matched detaches of g
(each detach removes at most one entry); so every entry corresponds to one
successful attach, but duplicate entries per GID are possible when the
same GID is attached more than once. -/
theorem mcast_membership_count (ops : List McOp) (g : Nat) :
    (mcast_run ops []).count g = mcast_count_spec g ops 0 := by
  have h := mcast_run_count g ops []
  simpa using h

/-- Claim C7 counterexample: an SMI queue pair with internal number 5 and
external number `IB_QPN_SMI` is returned by `ib_find_qp_qpn` for its
internal hardware number too — the lookup matches either number. -/
theorem find_qp_smi_internal_number_found :
    (ib_create_qp 0 .IB_QPT_SMI 4 4 5).ext_qpn = IB_QPN_SMI ∧
    (ib_create_qp 0 .IB_QPT_SMI 4 4 5).qpn = 5 ∧
    (5 : Nat) ≠ IB_QPN_SMI ∧
    ib_find_qp_qpn [ib_create_qp 0 .IB_QPT_SMI 4 4 5] 5 =
      some (ib_create_qp 0 .IB_QPT_SMI 4 4 5) := by
  exact ⟨rfl, rfl, by decide, rfl⟩

/-- Claim C7 (amended): a queue pair created with the subnet-management
type (external number remapped to the well-known `IB_QPN_SMI`, different
from its internal hardware number) is returned by number lookup both for
the well-known external number and for the internal hardware number. -/
theorem find_qp_smi_by_both (id ns nr qpn : Nat)
    (hne : qpn ≠ IB_QPN_SMI) :
    ib_find_qp_qpn [ib_create_qp id .IB_QPT_SMI ns nr qpn] IB_QPN_SMI =
      some (ib_create_qp id .IB_QPT_SMI ns nr qpn) ∧
    ib_find_qp_qpn [ib_create_qp id .IB_QPT_SMI ns nr qpn] qpn =
      some (ib_create_qp id .IB_QPT_SMI ns nr qpn) := by
  constructor
  · unfold ib_find_qp_qpn ib_create_qp
    simp [List.find?]
  · unfold ib_find_qp_qpn ib_create_qp
    simp [List.find?]

/-- Witness for the amended C7 at internal number 5. -/
theorem find_qp_smi_by_both_witness :
    (5 : Nat) ≠ IB_QPN_SMI ∧
    (ib_find_qp_qpn [ib_create_qp 0 .IB_QPT_SMI 4 4 5] IB_QPN_SMI =
       some (ib_create_qp 0 .IB_QPT_SMI 4 4 5) ∧
     ib_find_qp_qpn [ib_create_qp 0 .IB_QPT_SMI 4 4 5] 5 =
       some (ib_create_qp 0 .IB_QPT_SMI 4 4 5)) :=
  ⟨by decide, find_qp_smi_by_both 0 4 4 5 (by decide)⟩

/-- Claim C8: a successful attach of G on a pair with an empty membership
collection followed by a detach of G leaves the collection empty, and a
second detach of G completes without error and without modifying the
collection. -/
theorem mcast_attach_detach_twice (g : Nat) :
    ib_mcast_attach true 0 [] g = (0, [g]) ∧
    ib_mcast_detach [g] g = [] ∧
    ib_mcast_detach [] g = [] := by
  refine ⟨rfl, ?_, rfl⟩
  simp [ib_mcast_detach]

end Infiniband
